import Mathlib

/-!
Shallow embedding of the event-normalization / tool-dispatch / error-recovery
core of the textual-cli-agent repository:

* `AgentEngine.run_stream` (src/textual_cli_agent/engine.py)
* `APIErrorHandler` (src/textual_cli_agent/error_handler.py)
* `ContextManager` (src/textual_cli_agent/context_manager.py)
* the OpenAI adapter's tool-argument buffering
  (src/textual_cli_agent/providers/openai_provider.py)

Python dictionaries/values are modelled by `PyVal`; external collaborators of
the engine (the provider adapter and the tool executor, which are duck-typed
parameters in the source) are modelled as explicit function parameters.
Fallible Python calls are modelled with `Option`/`Except`.
-/

/-- Model of a Python value as it appears in messages, tool arguments and
tool results. `opaque_` stands for a Python object that `json.dumps` cannot
serialize (carrying the exception text it would produce). -/
inductive PyVal where
  | str (s : String)
  | int (n : Int)
  | bool (b : Bool)
  | null
  | list (xs : List PyVal)
  | dict (kvs : List (String × PyVal))
  | opaque_ (desc : String)

namespace PyVal

/-- `isinstance(v, dict)` -/
def isDict : PyVal → Bool
  | .dict _ => true
  | _ => false

/-- `key in d` for a dict (`false` on non-dicts, matching `"role" not in msg`
only being evaluated on dicts in the source). -/
def hasKey (key : String) : PyVal → Bool
  | .dict kvs => kvs.any (fun kv => kv.1 == key)
  | _ => false

/-- `d.get(key)` returning `none` when the key is absent or `v` not a dict. -/
def get (key : String) : PyVal → Option PyVal
  | .dict kvs => (kvs.find? (fun kv => kv.1 == key)).map (·.2)
  | _ => none

/-- `type(v).__name__` for the values `PyVal` models. -/
def typeName : PyVal → String
  | .str _ => "str"
  | .int _ => "int"
  | .bool _ => "bool"
  | .null => "NoneType"
  | .list _ => "list"
  | .dict _ => "dict"
  | .opaque_ d => d

end PyVal

/-- JSON string escaping as `json.dumps` performs it for the characters our
claims exercise (backslash and double quote). -/
def jsonEscape (s : String) : String :=
  String.join (s.data.map (fun c =>
    if c = '"' then "\\\"" else if c = '\\' then "\\\\" else String.singleton c))

/-- Rendered JSON string literal. -/
def jsonStr (s : String) : String := "\"" ++ jsonEscape s ++ "\""

mutual

/-- Model of `json.dumps(v, ensure_ascii=False)`: renders the value, or fails
with a `TypeError` message when the value contains a non-serializable object
(`PyVal.opaque_`). -/
def dumpsE : PyVal → Except String String
  | .str s => .ok (jsonStr s)
  | .int n => .ok (toString n)
  | .bool b => .ok (if b then "true" else "false")
  | .null => .ok "null"
  | .opaque_ d => .error ("Object of type " ++ d ++ " is not JSON serializable")
  | .list xs => do
      let rs ← dumpsListE xs
      pure ("[" ++ String.intercalate ", " rs ++ "]")
  | .dict kvs => do
      let rs ← dumpsKvsE kvs
      pure ("\x7b" ++ String.intercalate ", " rs ++ "\x7d")

def dumpsListE : List PyVal → Except String (List String)
  | [] => .ok []
  | x :: xs => do pure ((← dumpsE x) :: (← dumpsListE xs))

def dumpsKvsE : List (String × PyVal) → Except String (List String)
  | [] => .ok []
  | kv :: xs => do pure ((jsonStr kv.1 ++ ": " ++ (← dumpsE kv.2)) :: (← dumpsKvsE xs))

end

/-- A normalized chunk yielded by a provider's `completions_stream`, as read by
the engine's stream loop (engine.py lines 77-101).  `invalid` models a falsy or
non-dict chunk (skipped), `other` a dict whose `type` is neither `text` nor
`tool_call` (ignored). -/
inductive Chunk where
  | text (delta : String)
  | toolCall (id : Option String) (name : Option String) (arguments : Option PyVal)
  | invalid
  | other

/-- The events `run_stream` yields to its caller. -/
inductive Event where
  | text (delta : String)
  | toolResult (id : String) (content : String)
  | appendMessage (message : PyVal)
  | roundComplete (hadToolCalls : Bool)

def Event.isRoundComplete : Event → Bool
  | .roundComplete _ => true
  | _ => false

/-- A queued tool call (`scheduled_tools` entry, engine.py lines 97-101). -/
structure Sched where
  id : String
  name : String
  arguments : PyVal

/-- Accumulator state of the engine's stream-consumption loop
(engine.py lines 66-108): events yielded so far, accumulated text parts,
raw tool-call chunks, queued executions and the `had_tool_calls` flag. -/
structure StreamAcc where
  events : List Event
  textParts : List String
  toolCalls : List Chunk
  scheduled : List Sched
  hadToolCalls : Bool

def initAcc : StreamAcc := ⟨[], [], [], [], false⟩

/-- One iteration of the engine's `async for chunk in ...` loop
(engine.py lines 77-108). -/
def procChunk (acc : StreamAcc) (c : Chunk) : StreamAcc :=
  match c with
  | .invalid => acc
  | .other => acc
  | .text d =>
      { acc with
        textParts := if d ≠ "" then acc.textParts ++ [d] else acc.textParts
        events := acc.events ++ [.text d] }
  | .toolCall id name args =>
      let toolCalls := acc.toolCalls ++ [c]
      let sched : Sched :=
        { id := id.getD ("call_" ++ toString toolCalls.length)
          name := name.getD "unknown_tool"
          arguments := args.getD (.dict []) }
      { acc with
        hadToolCalls := true
        toolCalls := toolCalls
        scheduled := acc.scheduled ++ [sched] }

def streamPhase (chunks : List Chunk) : StreamAcc := chunks.foldl procChunk initAcc

/-- The engine's external collaborators, duck-typed parameters in the source:
the provider adapter's stream outcome (`streamChunks` then, when
`streamError = some e`, an exception with message `e`), the tool executor
(`_execute_tool_safely`, which never raises), and the provider's two
message-formatting methods (`none` models a raised exception). -/
structure EngineEnv where
  streamChunks : List Chunk
  streamError : Option String
  execTool : String → PyVal → PyVal
  formatToolResult : String → String → Option PyVal
  buildAssistant : String → List Chunk → Option PyVal

/-- The serialized result string for one queued call
(engine.py lines 140-147): `json.dumps` of the tool result, falling back to a
serialized `error` dict when serialization raises. -/
def resultStr (env : EngineEnv) (t : Sched) : String :=
  match dumpsE (env.execTool t.name t.arguments) with
  | .ok s => s
  | .error e =>
      (dumpsE (.dict [("error", .str ("Result serialization failed: " ++ e))])).toOption.getD ""

/-- The provider-formatted tool message queued for append
(engine.py lines 148-158), with the literal fallback dict when
`format_tool_result_message` raises. -/
def pendingMsg (env : EngineEnv) (t : Sched) : PyVal :=
  match env.formatToolResult t.id (resultStr env t) with
  | some m => m
  | none =>
      .dict [("role", .str "tool"), ("tool_call_id", .str t.id),
             ("content", .str (resultStr env t))]

/-- `"".join(assistant_text_parts)` -/
def finalText (acc : StreamAcc) : String := String.join acc.textParts

/-- The assistant message (engine.py lines 169-182), with the
`{role: assistant, content: text}` fallback when `build_assistant_message`
raises. -/
def assistantMessage (env : EngineEnv) (acc : StreamAcc) : PyVal :=
  match env.buildAssistant (finalText acc) acc.toolCalls with
  | some m => m
  | none => .dict [("role", .str "assistant"), ("content", .str (finalText acc))]

/-- The `[ERROR] Provider stream failed` event (engine.py lines 110-115). -/
def streamFailEvents (env : EngineEnv) : List Event :=
  match env.streamError with
  | some e => [.text ("[ERROR] Provider stream failed: " ++ e)]
  | none => []

/-- The message-validation loop (engine.py lines 40-54): the error delta of the
first offending entry, scanned in order. -/
def firstInvalid : Nat → List PyVal → Option String
  | _, [] => none
  | i, m :: rest =>
    if ¬ m.isDict then some ("[ERROR] Invalid message format at index " ++ toString i)
    else if ¬ m.hasKey "role" then
      some ("[ERROR] Message missing role at index " ++ toString i)
    else firstInvalid (i + 1) rest

/-- Input validation of `run_stream` (engine.py lines 35-54). -/
def validateMessages (messages : List PyVal) : Option String :=
  if messages.isEmpty then some "[ERROR] No messages provided"
  else firstInvalid 0 messages

/-- `AgentEngine.run_stream` (engine.py lines 30-193): the full event sequence
yielded for one invocation.  On validation failure the generator yields the
error text and returns (no further events).  Otherwise: stream pass-through
events, the provider-stream-failure text if any, one `tool_result` per queued
call in queue order (results paired by `zip`), the assistant `append_message`,
the queued tool-result `append_message`s in order, and the terminal
`round_complete`. -/
def runStream (env : EngineEnv) (messages : List PyVal) : List Event :=
  match validateMessages messages with
  | some err => [.text err]
  | none =>
      let acc := streamPhase env.streamChunks
      acc.events
        ++ streamFailEvents env
        ++ acc.scheduled.map (fun t => .toolResult t.id (resultStr env t))
        ++ [.appendMessage (assistantMessage env acc)]
        ++ acc.scheduled.map (fun t => .appendMessage (pendingMsg env t))
        ++ [.roundComplete acc.hadToolCalls]

/-- Runtime-tunable engine settings (engine.py lines 19-22). -/
structure EngineSettings where
  tool_timeout : ℚ := 60

/-- `AgentEngine._execute_tool_safely` (engine.py lines 195-219).  The inner
execution (`_execute_tool_internal`, which never raises) is modelled by its
result `execResult` together with the wall-clock duration `execDuration` it
would take; `asyncio.wait_for(..., timeout=60.0)` cancels it and raises
`TimeoutError` when that duration exceeds the hardcoded 60.0 — the
`settings.tool_timeout` attribute is not consulted. -/
def executeToolSafely (settings : EngineSettings) (name : String) (args : PyVal)
    (execDuration : ℚ) (execResult : PyVal) : PyVal :=
  if ¬ args.isDict then
    .dict [("error", .str ("Tool arguments must be a dictionary, got " ++ args.typeName))]
  else if execDuration > 60 then
    .dict [("error", .str ("Tool \x27" ++ name ++ "\x27 execution timed out"))]
  else execResult

/-! ## Error classifier (src/textual_cli_agent/error_handler.py) -/

/-- Scan for `pat` as a contiguous sublist at any position. -/
def charsContain (pat : List Char) : List Char → Bool
  | [] => pat.isEmpty
  | c :: rest => pat.isPrefixOf (c :: rest) || charsContain pat rest

/-- `pat in s` on Python strings. -/
def strContains (s pat : String) : Bool := charsContain pat.toList s.toList

/-- `s.lower()` (character-wise lowering, as the source's ASCII error strings
need). -/
def strToLower (s : String) : String := String.mk (s.data.map Char.toLower)

/-- `s.strip()` (whitespace trimming at both ends). -/
def strTrim (s : String) : String :=
  String.mk (((s.data.dropWhile Char.isWhitespace).reverse.dropWhile
    Char.isWhitespace).reverse)

/-- Output of `APIErrorHandler.analyze_error` (error_handler.py lines 12-22).
`wait_seconds` is a rational modelling the Python float. -/
structure ErrorAnalysis where
  error_type : String
  is_recoverable : Bool
  should_retry : Bool
  should_reduce_context : Bool
  should_prune_messages : Bool
  wait_seconds : Option ℚ := none
  recovery_message : String := ""

def digitsToNat (ds : List Char) : Nat :=
  ds.foldl (fun a c => a * 10 + (c.toNat - 48)) 0

/-- Attempt to match the regex `try again in (\d+)s` at the head of `l`
(greedy digit run followed by a literal `s`). -/
def matchTryAgainAt (l : List Char) : Option Nat :=
  let pat := "try again in ".toList
  if pat.isPrefixOf l then
    let rest := l.drop pat.length
    let ds := rest.takeWhile Char.isDigit
    if ds.isEmpty then none
    else
      match rest.drop ds.length with
      | 's' :: _ => some (digitsToNat ds)
      | _ => none
  else none

/-- `re.search(r"try again in (\d+)s", s)`: first position where the pattern
matches. -/
def findTryAgainWait : List Char → Option Nat
  | [] => none
  | c :: rest =>
      match matchTryAgainAt (c :: rest) with
      | some n => some n
      | none => findTryAgainWait rest

/-- `APIErrorHandler._analyze_rate_limit_error` (error_handler.py
lines 124-150). -/
def analyzeRateLimitError (error_str : String) : ErrorAnalysis :=
  let lower := strToLower error_str
  let wait_seconds : ℚ :=
    match findTryAgainWait lower.toList with
    | some n => (n : ℚ)
    | none =>
        if strContains lower "tpm" || strContains lower "tokens per min" then 20
        else if strContains lower "rpm" || strContains lower "requests per min" then 60
        else 60
  { error_type := "rate_limit"
    is_recoverable := true
    should_retry := true
    should_reduce_context := strContains lower "tpm" || strContains lower "tokens"
    should_prune_messages := strContains lower "tpm" || strContains lower "tokens"
    wait_seconds := some wait_seconds
    recovery_message :=
      "Rate limit exceeded. Waiting " ++ toString wait_seconds ++ "s before retrying..." }

/-- `APIErrorHandler._analyze_token_limit_error` (error_handler.py
lines 152-161). -/
def analyzeTokenLimitError : ErrorAnalysis :=
  { error_type := "token_limit"
    is_recoverable := true
    should_retry := true
    should_reduce_context := true
    should_prune_messages := true
    recovery_message := "Token limit exceeded. Reducing conversation history and retrying..." }

/-- The tail of `analyze_error` reached when no 4XX-specific branch returned:
5XX server errors, network/timeout keywords, then the unknown default
(error_handler.py lines 90-122). -/
def analyzeTail (error_str error_lower : String) : ErrorAnalysis :=
  if strContains error_str "500" || strContains error_str "502" ||
      strContains error_str "503" || strContains error_str "504" then
    { error_type := "server_error"
      is_recoverable := true
      should_retry := true
      should_reduce_context := false
      should_prune_messages := false
      wait_seconds := some 5
      recovery_message := "Server error encountered. Retrying in 5 seconds..." }
  else if strContains error_lower "timeout" || strContains error_lower "connection" ||
      strContains error_lower "network" then
    { error_type := "network_error"
      is_recoverable := true
      should_retry := true
      should_reduce_context := false
      should_prune_messages := false
      wait_seconds := some 2
      recovery_message := "Network error. Retrying in 2 seconds..." }
  else
    { error_type := "unknown"
      is_recoverable := false
      should_retry := false
      should_reduce_context := false
      should_prune_messages := false
      recovery_message := "Unknown error: " ++ error_str }

/-- `APIErrorHandler.analyze_error` (error_handler.py lines 32-122), a pure
function of `str(error)`. -/
def analyzeError (error_str : String) : ErrorAnalysis :=
  let error_lower := strToLower error_str
  if strContains error_str "429" && strContains error_str "rate_limit_exceeded" then
    analyzeRateLimitError error_str
  else if strContains error_str "400" &&
      (strContains error_lower "token" || strContains error_lower "context") then
    analyzeTokenLimitError
  else if (strContains error_lower "context" && strContains error_lower "window") ||
      strContains error_lower "maximum context length" then
    { error_type := "context_exceeded"
      is_recoverable := true
      should_retry := true
      should_reduce_context := true
      should_prune_messages := true
      recovery_message := "Context window exceeded. Reducing message history and retrying..." }
  else
    let fourxx : Option ErrorAnalysis :=
      if strContains error_str "400" || strContains error_str "401" ||
          strContains error_str "403" || strContains error_str "404" ||
          strContains error_str "422" || strContains error_str "429" then
        if strContains error_str "401" then
          some { error_type := "auth_error"
                 is_recoverable := false
                 should_retry := false
                 should_reduce_context := false
                 should_prune_messages := false
                 recovery_message := "Authentication failed. Please check your API key." }
        else if strContains error_str "403" then
          some { error_type := "forbidden"
                 is_recoverable := false
                 should_retry := false
                 should_reduce_context := false
                 should_prune_messages := false
                 recovery_message := "Access forbidden. Check API permissions or usage limits." }
        else if strContains error_str "422" then
          some { error_type := "validation_error"
                 is_recoverable := true
                 should_retry := false
                 should_reduce_context := true
                 should_prune_messages := true
                 recovery_message := "Request validation failed. Attempting to fix request format..." }
        else none
      else none
    match fourxx with
    | some a => a
    | none => analyzeTail error_str error_lower

/-- Association-list update modelling Python dict assignment. -/
def assocSet [BEq α] : List (α × β) → α → β → List (α × β)
  | [], k, v => [(k, v)]
  | kv :: rest, k, v => if kv.1 == k then (k, v) :: rest else kv :: assocSet rest k v

/-- `d.get(k)` on an association list. -/
def assocGet [BEq α] (l : List (α × β)) (k : α) : Option β :=
  (l.find? (fun kv => kv.1 == k)).map (·.2)

/-- `APIErrorHandler` retry state (error_handler.py lines 28-30). -/
structure RetryState where
  retry_counts : List (String × Nat) := []
  max_retries : Nat := 3

/-- Observable actions of `handle_error_with_retry` after the decision to
retry: the backoff sleep and the chunks forwarded from `retry_func`. -/
inductive RetryEvent where
  | sleep (seconds : ℚ)
  | chunk (c : Chunk)

/-- `APIErrorHandler.handle_error_with_retry` (error_handler.py
lines 163-191).  `retryChunks` models the sequence `retry_func(*args)` would
yield.  A `.error` result models re-raising the original error; `.ok` returns
the updated handler state and the yielded events.  The backoff sleep happens
only when `analysis.wait_seconds` is truthy (present and nonzero). -/
def handleErrorWithRetry (st : RetryState) (error_str : String) (retry_key : String)
    (retryChunks : List Chunk) : Except String (RetryState × List RetryEvent) :=
  let analysis := analyzeError error_str
  if ¬ analysis.is_recoverable then .error error_str
  else
    let retry_count := (assocGet st.retry_counts retry_key).getD 0
    if retry_count ≥ st.max_retries then .error error_str
    else if ¬ analysis.should_retry then .error error_str
    else
      let st' : RetryState :=
        { st with retry_counts := assocSet st.retry_counts retry_key (retry_count + 1) }
      let sleeps : List RetryEvent :=
        match analysis.wait_seconds with
        | some w => if w ≠ 0 then [.sleep w] else []
        | none => []
      .ok (st', sleeps ++ retryChunks.map RetryEvent.chunk)

/-! ## Context pruner (src/textual_cli_agent/context_manager.py) -/

/-- `ContextManager.__init__` settings (context_manager.py lines 12-15). -/
structure CtxSettings where
  max_context_messages : Nat := 50
  preserve_system_messages : Bool := true
  preserve_recent_messages : Nat := 10

/-- `msg.get("role") == "system"` -/
def isSystemMsg (m : PyVal) : Bool :=
  match m.get "role" with
  | some (.str r) => r == "system"
  | _ => false

/-- Python `int()` applied to a rational: truncation toward zero. -/
def pyInt (q : ℚ) : Int := if 0 ≤ q then ⌊q⌋ else ⌈q⌉

mutual

/-- Python `str(v)` for the values `PyVal` models. -/
def pyStr : PyVal → String
  | .str s => s
  | .int n => toString n
  | .bool b => if b then "True" else "False"
  | .null => "None"
  | .list xs => "[" ++ String.intercalate ", " (pyReprList xs) ++ "]"
  | .dict kvs => "\x7b" ++ String.intercalate ", " (pyReprKvs kvs) ++ "\x7d"
  | .opaque_ d => "<" ++ d ++ " object>"

/-- Python `repr(v)`: differs from `str` only on strings. -/
def pyRepr : PyVal → String
  | .str s => "\x27" ++ s ++ "\x27"
  | .int n => toString n
  | .bool b => if b then "True" else "False"
  | .null => "None"
  | .list xs => "[" ++ String.intercalate ", " (pyReprList xs) ++ "]"
  | .dict kvs => "\x7b" ++ String.intercalate ", " (pyReprKvs kvs) ++ "\x7d"
  | .opaque_ d => "<" ++ d ++ " object>"

def pyReprList : List PyVal → List String
  | [] => []
  | x :: xs => pyRepr x :: pyReprList xs

def pyReprKvs : List (String × PyVal) → List String
  | [] => []
  | kv :: xs =>
      ("\x27" ++ kv.1 ++ "\x27" ++ ": " ++ pyRepr kv.2) :: pyReprKvs xs

end

/-- `len(x)` where the source may apply it to a non-string `text` value. -/
def pyLen : PyVal → Nat
  | .str s => s.length
  | .list xs => xs.length
  | .dict kvs => kvs.length
  | _ => 0

/-- `ContextManager.estimate_tokens` (context_manager.py lines 17-41). -/
def estimateTokens (messages : List PyVal) : Nat :=
  messages.foldl (fun total msg =>
    let content := (msg.get "content").getD (.str "")
    let total :=
      match content with
      | .str s => total + s.length / 4
      | .list items =>
          items.foldl (fun t item =>
            if item.isDict then
              match item.get "type" with
              | some (.str "text") => t + pyLen ((item.get "text").getD (.str "")) / 4
              | _ => t
            else t) total
      | _ => total
    if msg.hasKey "tool_calls" then
      match (msg.get "tool_calls").getD (.list []) with
      | .list tcs =>
          tcs.foldl (fun t tc =>
            if tc.isDict then
              let args := (((tc.get "function").getD (.dict [])).get "arguments").getD (.str "")
              t + 50 + (pyStr args).length / 4
            else t) total
      | _ => total
    else total) 0

/-- `ContextManager.should_prune_context` (context_manager.py lines 43-69). -/
def shouldPruneContext (cfg : CtxSettings) (messages : List PyVal)
    (error_str : String) : Bool :=
  let lower := strToLower error_str
  if strContains lower "context" || strContains lower "token" ||
      strContains lower "too large" || strContains lower "maximum context length" ||
      strContains lower "limit" then true
  else if messages.length > cfg.max_context_messages then true
  else if estimateTokens messages > 50000 then true
  else false

/-- `ContextManager.prune_messages` (context_manager.py lines 71-108).
`target_count` uses Python `int()` (truncation toward zero); the kept tail is
`non_system_messages[-target_count:]`, which is the whole list when
`target_count == 0`. -/
def pruneMessages (cfg : CtxSettings) (messages : List PyVal)
    (target_reduction : ℚ) : List PyVal :=
  if messages.isEmpty then messages
  else
    let system_messages := messages.filter isSystemMsg
    let non_system_messages := messages.filter (fun m => !isSystemMsg m)
    if non_system_messages.isEmpty then messages
    else
      let current_count := non_system_messages.length
      let target_count : Int :=
        max (cfg.preserve_recent_messages : Int)
          (pyInt ((current_count : ℚ) * (1 - target_reduction)))
      if (current_count : Int) ≤ target_count then messages
      else
        let messages_to_keep :=
          if target_count = 0 then non_system_messages
          else non_system_messages.drop (current_count - target_count.toNat)
        system_messages ++ messages_to_keep

/-- `ContextManager.prune_for_error` (context_manager.py lines 110-122). -/
def pruneForError (cfg : CtxSettings) (messages : List PyVal)
    (error_str : String) : List PyVal :=
  let lower := strToLower error_str
  if strContains lower "token" || strContains lower "too large" then
    pruneMessages cfg messages (7/10)
  else if strContains lower "context" then
    pruneMessages cfg messages (1/2)
  else
    pruneMessages cfg messages (3/10)

/-- `ContextManager.create_context_summary` (context_manager.py
lines 124-130). -/
def createContextSummary (messages : List PyVal) : PyVal :=
  let non_system_count := (messages.filter (fun m => !isSystemMsg m)).length
  .dict [("role", .str "system"),
         ("content", .str ("[Previous conversation context with " ++
            toString non_system_count ++
            " messages was summarized to manage token limits. Key points from the conversation are preserved in this session.]"))]

/-- `ContextManager.adaptive_prune_with_summary` (context_manager.py
lines 132-151). -/
def adaptivePruneWithSummary (cfg : CtxSettings) (messages : List PyVal)
    (error_str : String) : List PyVal :=
  if ¬ shouldPruneContext cfg messages error_str then messages
  else
    let summary_msg := createContextSummary messages
    let pruned := pruneForError cfg messages error_str
    let system_messages := pruned.filter isSystemMsg
    let other_messages := pruned.filter (fun m => !isSystemMsg m)
    system_messages ++ [summary_msg] ++ other_messages

/-! ## JSON parsing (model of Python's `json.loads`, used by the OpenAI
adapter to decide when buffered tool arguments are complete)

The model covers objects, arrays, strings with simple escapes, integers,
booleans and null — the fragment the adapter's buffered argument strings
exercise.  Parsing fails (`none`) exactly when `json.loads` would raise
`JSONDecodeError` on such inputs; in particular every strict prefix of an
incomplete object fails. -/

def jsonWsChar (c : Char) : Bool := c = ' ' || c = '\t' || c = '\n' || c = '\r'

def skipWs (l : List Char) : List Char := l.dropWhile jsonWsChar

def parseEscape : Char → Option Char
  | '"' => some '"'
  | '\\' => some '\\'
  | '/' => some '/'
  | 'b' => some (Char.ofNat 8)
  | 'f' => some (Char.ofNat 12)
  | 'n' => some '\n'
  | 'r' => some '\r'
  | 't' => some '\t'
  | _ => none

def parseStringBody : Nat → List Char → Option (String × List Char)
  | 0, _ => none
  | _ + 1, [] => none
  | _ + 1, '"' :: rest => some ("", rest)
  | fuel + 1, '\\' :: c :: rest => do
      let e ← parseEscape c
      let (s, r) ← parseStringBody fuel rest
      pure (String.singleton e ++ s, r)
  | fuel + 1, c :: rest => do
      let (s, r) ← parseStringBody fuel rest
      pure (String.singleton c ++ s, r)

def parseNumber (l : List Char) : Option (PyVal × List Char) :=
  match l with
  | '-' :: rest =>
      let ds := rest.takeWhile Char.isDigit
      if ds.isEmpty then none
      else some (.int (-(digitsToNat ds : Int)), rest.drop ds.length)
  | _ =>
      let ds := l.takeWhile Char.isDigit
      if ds.isEmpty then none
      else some (.int (digitsToNat ds), l.drop ds.length)

mutual

def parseValue : Nat → List Char → Option (PyVal × List Char)
  | 0, _ => none
  | fuel + 1, l =>
      match skipWs l with
      | '"' :: rest => (parseStringBody fuel rest).map (fun sr => (.str sr.1, sr.2))
      | '[' :: rest =>
          (match skipWs rest with
           | ']' :: r2 => some (.list [], r2)
           | r => (parseArrayElems fuel r).map (fun xr => (.list xr.1, xr.2)))
      | '{' :: rest =>
          (match skipWs rest with
           | '}' :: r2 => some (.dict [], r2)
           | r => (parseObjectMembers fuel r).map (fun mr => (.dict mr.1, mr.2)))
      | 't' :: rest =>
          if "rue".toList.isPrefixOf rest then some (.bool true, rest.drop 3) else none
      | 'f' :: rest =>
          if "alse".toList.isPrefixOf rest then some (.bool false, rest.drop 4) else none
      | 'n' :: rest =>
          if "ull".toList.isPrefixOf rest then some (.null, rest.drop 3) else none
      | l2 => parseNumber l2

def parseArrayElems : Nat → List Char → Option (List PyVal × List Char)
  | 0, _ => none
  | fuel + 1, l => do
      let (v, r) ← parseValue fuel l
      match skipWs r with
      | ',' :: r2 => do
          let (xs, r3) ← parseArrayElems fuel r2
          pure (v :: xs, r3)
      | ']' :: r2 => pure ([v], r2)
      | _ => none

def parseObjectMembers : Nat → List Char → Option (List (String × PyVal) × List Char)
  | 0, _ => none
  | fuel + 1, l =>
      match skipWs l with
      | '"' :: rest => do
          let (k, r) ← parseStringBody fuel rest
          match skipWs r with
          | ':' :: r2 => do
              let (v, r3) ← parseValue fuel r2
              match skipWs r3 with
              | ',' :: r4 => do
                  let (kvs, r5) ← parseObjectMembers fuel r4
                  pure ((k, v) :: kvs, r5)
              | '}' :: r4 => pure ([(k, v)], r4)
              | _ => none
          | _ => none
      | _ => none

end

/-- `json.loads(s)`: the whole string must be consumed (up to trailing
whitespace). -/
def jsonLoads (s : String) : Option PyVal :=
  let l := s.toList
  match parseValue (2 * l.length + 4) l with
  | some (v, rest) => if (skipWs rest).isEmpty then some v else none
  | none => none

/-! ## OpenAI adapter: incremental tool-call buffering
(src/textual_cli_agent/providers/openai_provider.py lines 126-210)

One vendor stream event's `choices[0].delta` is modelled by `ODelta`: an
optional text `content` and a list of incremental tool-call updates.  `none`
(or the empty string) models an absent/falsy attribute. -/

structure TCDelta where
  index : Nat
  id : Option String
  name : Option String
  arguments : Option String

structure ODelta where
  content : Option String
  toolCalls : List TCDelta

/-- The adapter's per-stream buffers (openai_provider.py lines 126-130). -/
structure OBuf where
  argBuf : List (Nat × String)
  nameBuf : List (Nat × String)
  idBuf : List (Nat × String)
  emitted : List Nat

def OBuf.init : OBuf := ⟨[], [], [], []⟩

/-- The buffer-accumulation part of one incremental tool-call update
(openai_provider.py lines 159-172): record a truthy id and name, and append a
truthy argument fragment to the index's argument buffer. -/
def updateBufs (st : OBuf) (tc : TCDelta) : OBuf :=
  let st :=
    match tc.id with
    | some s => if s ≠ "" then { st with idBuf := assocSet st.idBuf tc.index s } else st
    | none => st
  let st :=
    match tc.name with
    | some s => if s ≠ "" then { st with nameBuf := assocSet st.nameBuf tc.index s } else st
    | none => st
  match tc.arguments with
  | some a =>
      if a ≠ "" then
        { st with argBuf :=
            assocSet st.argBuf tc.index ((assocGet st.argBuf tc.index).getD "" ++ a) }
      else st
  | none => st

/-- Processing of one incremental tool-call update `tc`
(openai_provider.py lines 156-207): accumulate id / name / argument
fragments, then emit a single `tool_call` chunk the first time the
accumulated argument buffer parses as JSON. -/
def procTCDelta (st : OBuf) (tc : TCDelta) : OBuf × List Chunk :=
  let st := updateBufs st tc
  if st.emitted.contains tc.index then (st, [])
  else
    match assocGet st.argBuf tc.index with
    | none => (st, [])
    | some buf =>
        if strTrim buf = "" then (st, [])
        else
          match jsonLoads buf with
          | none => (st, [])
          | some args =>
              let name := (assocGet st.nameBuf tc.index).getD
                ("unknown_tool_" ++ toString tc.index)
              let call_id := (assocGet st.idBuf tc.index).getD
                ("call_" ++ toString tc.index)
              ({ st with emitted := tc.index :: st.emitted },
               [Chunk.toolCall (some call_id) (some name) (some args)])

/-- One inner-loop iteration over `delta.tool_calls`, accumulating the
emitted chunks. -/
def tcStep (acc : OBuf × List Chunk) (tc : TCDelta) : OBuf × List Chunk :=
  let r := procTCDelta acc.1 tc
  (r.1, acc.2 ++ r.2)

/-- Processing of one vendor stream event (openai_provider.py
lines 133-207): a text chunk for a truthy `content`, then the tool-call
updates in order. -/
def procODelta (st : OBuf) (d : ODelta) : OBuf × List Chunk :=
  let textChunks : List Chunk :=
    match d.content with
    | some c => if c ≠ "" then [.text c] else []
    | none => []
  let step := d.toolCalls.foldl tcStep (st, [])
  (step.1, textChunks ++ step.2)

/-- One outer-loop iteration over the vendor stream events. -/
def dStep (acc : OBuf × List Chunk) (d : ODelta) : OBuf × List Chunk :=
  let r := procODelta acc.1 d
  (r.1, acc.2 ++ r.2)

/-- The normalized chunk sequence the OpenAI adapter emits for a given
vendor delta stream (the post-call streaming loop of
`_completions_stream_with_retry`). -/
def openaiStreamEvents (deltas : List ODelta) : List Chunk :=
  (deltas.foldl dStep (OBuf.init, [])).2

/-! ## Concrete environments and projections used by the statements -/

/-- A provider/tool environment with an empty stream and failing formatters:
the simplest collaborator instantiation. -/
def envTriv : EngineEnv :=
  ⟨[], none, fun _ _ => .null, fun _ _ => none, fun _ _ => none⟩

/-- An environment whose stream carries one text chunk and two tool calls
(one with all fields, one with every field absent), with well-behaved
formatters. -/
def envToolDemo : EngineEnv :=
  ⟨[Chunk.text "hi",
    Chunk.toolCall (some "c1") (some "add") (some (.dict [("x", .int 1)])),
    Chunk.toolCall none none none],
   none,
   fun _ _ => .dict [("ok", .bool true)],
   fun cid content =>
     some (.dict [("role", .str "tool"), ("tool_call_id", .str cid),
                  ("content", .str content)]),
   fun text _ => some (.dict [("role", .str "assistant"), ("content", .str text)])⟩

/-- `envToolDemo` with a `format_tool_result_message` that always raises. -/
def envFormatFail : EngineEnv :=
  { envToolDemo with formatToolResult := fun _ _ => none }

/-- Projection selecting `tool_result` events. -/
def toolResultOf : Event → Option (String × String)
  | .toolResult i c => some (i, c)
  | _ => none

/-- Projection selecting `append_message` events. -/
def appendOf : Event → Option PyVal
  | .appendMessage m => some m
  | _ => none

def Chunk.isToolCall : Chunk → Bool
  | .toolCall _ _ _ => true
  | _ => false

/-! ## Helper lemmas about the engine's stream phase and validation -/

theorem procChunk_events_shape (acc : StreamAcc) (c : Chunk) :
    (procChunk acc c).events = acc.events ∨
      ∃ d, (procChunk acc c).events = acc.events ++ [Event.text d] := by
  cases c with
  | text d => exact .inr ⟨d, rfl⟩
  | toolCall id name args => exact .inl rfl
  | invalid => exact .inl rfl
  | other => exact .inl rfl

theorem foldl_procChunk_events_mem (chunks : List Chunk) :
    ∀ (acc : StreamAcc) (e : Event), e ∈ (chunks.foldl procChunk acc).events →
      e ∈ acc.events ∨ ∃ d, e = Event.text d := by
  induction chunks with
  | nil => intro acc e he; exact .inl he
  | cons c rest ih =>
      intro acc e he
      rcases ih (procChunk acc c) e he with h | h
      · rcases procChunk_events_shape acc c with hE | ⟨d, hE⟩
        · rw [hE] at h; exact .inl h
        · rw [hE] at h
          rcases List.mem_append.mp h with h | h
          · exact .inl h
          · simp only [List.mem_singleton] at h; exact .inr ⟨d, h⟩
      · exact .inr h

theorem mem_streamPhase_events {chunks : List Chunk} {e : Event}
    (h : e ∈ (streamPhase chunks).events) : ∃ d, e = Event.text d := by
  rcases foldl_procChunk_events_mem chunks initAcc e h with h | h
  · simp [initAcc] at h
  · exact h

theorem streamPhase_events_no_round_complete (chunks : List Chunk) :
    ((streamPhase chunks).events).countP Event.isRoundComplete = 0 := by
  rw [List.countP_eq_zero]
  intro e he
  obtain ⟨d, rfl⟩ := mem_streamPhase_events he
  simp [Event.isRoundComplete]

theorem streamFailEvents_no_round_complete (env : EngineEnv) :
    (streamFailEvents env).countP Event.isRoundComplete = 0 := by
  unfold streamFailEvents
  cases env.streamError <;> simp [Event.isRoundComplete]

theorem countP_rc_map_eq_zero (f : Sched → Event) (S : List Sched)
    (hf : ∀ t, Event.isRoundComplete (f t) = false) :
    List.countP Event.isRoundComplete (S.map f) = 0 := by
  rw [List.countP_map]
  exact List.countP_eq_zero.mpr (fun a _ => by simp [Function.comp_apply, hf])

theorem firstInvalid_eq_none (i : Nat) (ms : List PyVal)
    (h : ∀ m ∈ ms, m.isDict = true ∧ m.hasKey "role" = true) :
    firstInvalid i ms = none := by
  induction ms generalizing i with
  | nil => rfl
  | cons m rest ih =>
      obtain ⟨h1, h2⟩ := h m (by simp)
      unfold firstInvalid
      rw [if_neg (not_not_intro h1), if_neg (not_not_intro h2)]
      exact ih (i + 1) (fun m hm => h m (by simp [hm]))

theorem validateMessages_eq_none {ms : List PyVal} (h0 : ms ≠ [])
    (h : ∀ m ∈ ms, m.isDict = true ∧ m.hasKey "role" = true) :
    validateMessages ms = none := by
  unfold validateMessages
  rw [if_neg (by simpa [List.isEmpty_iff] using h0)]
  exact firstInvalid_eq_none 0 ms h

theorem firstInvalid_isSome (i : Nat) (ms : List PyVal) (m : PyVal)
    (hm : m ∈ ms) (hbad : ¬(m.isDict = true ∧ m.hasKey "role" = true)) :
    (firstInvalid i ms).isSome = true := by
  induction ms generalizing i with
  | nil => cases hm
  | cons a rest ih =>
      unfold firstInvalid
      by_cases h1 : a.isDict = true
      · rw [if_neg (not_not_intro h1)]
        by_cases h2 : a.hasKey "role" = true
        · rw [if_neg (not_not_intro h2)]
          rcases List.mem_cons.mp hm with rfl | hm'
          · exact absurd ⟨h1, h2⟩ hbad
          · exact ih (i + 1) hm'
        · rw [if_pos h2]; rfl
      · rw [if_pos h1]; rfl

theorem isPrefixOf_append_right (pat l1 l2 : List Char)
    (h : pat.isPrefixOf l1 = true) : pat.isPrefixOf (l1 ++ l2) = true := by
  rw [List.isPrefixOf_iff_prefix] at h ⊢
  exact h.trans (List.prefix_append l1 l2)

theorem charsContain_of_prefixOf (pat l : List Char)
    (h : pat.isPrefixOf l = true) : charsContain pat l = true := by
  cases l with
  | nil =>
      cases pat with
      | nil => rfl
      | cons p ps => simp [List.isPrefixOf] at h
  | cons c rest => simp [charsContain, h]

theorem strContains_error_append (tail rest2 : String)
    (h : ("[ERROR]").toList.isPrefixOf (("[ERROR] " ++ tail).toList) = true) :
    strContains ("[ERROR] " ++ tail ++ rest2) "[ERROR]" = true := by
  unfold strContains
  apply charsContain_of_prefixOf
  have : ("[ERROR] " ++ tail ++ rest2).toList =
      ("[ERROR] " ++ tail).toList ++ rest2.toList := by
    simp [String.toList, String.data_append]
  rw [this]
  exact isPrefixOf_append_right _ _ _ h

theorem firstInvalid_some_contains_error (i : Nat) (ms : List PyVal) (d : String)
    (h : firstInvalid i ms = some d) : strContains d "[ERROR]" = true := by
  induction ms generalizing i with
  | nil => simp [firstInvalid] at h
  | cons a rest ih =>
      unfold firstInvalid at h
      by_cases h1 : a.isDict = true
      · rw [if_neg (not_not_intro h1)] at h
        by_cases h2 : a.hasKey "role" = true
        · rw [if_neg (not_not_intro h2)] at h
          exact ih (i + 1) h
        · rw [if_pos h2] at h
          obtain rfl := Option.some.inj h
          exact strContains_error_append "Message missing role at index " (toString i)
            (by decide)
      · rw [if_pos h1] at h
        obtain rfl := Option.some.inj h
        exact strContains_error_append "Invalid message format at index " (toString i)
          (by decide)

/-! ## C1 -/

/-- C1 counterexample: on the malformed input `[]` (empty message list),
`run_stream` yields the single `[ERROR]` text event and then returns — the
emitted sequence contains NO `round_complete` event, contradicting the
claim that the sequence still terminates with `round_complete`. -/
theorem runStream_empty_messages_counterexample :
    runStream envTriv [] = [Event.text "[ERROR] No messages provided"] ∧
      (runStream envTriv []).countP Event.isRoundComplete = 0 :=
  ⟨rfl, rfl⟩

/-- C1 (amended): for every malformed input to `run_stream` (the empty list,
a list containing a non-dict entry, or a list containing an entry without a
`role` key), the emitted event sequence is exactly one `text` event whose
delta contains `[ERROR]`, and the generator returns without emitting a
`round_complete` event. -/
theorem runStream_malformed_validation (env : EngineEnv) (messages : List PyVal)
    (hbad : messages = [] ∨ ∃ m ∈ messages, ¬(m.isDict = true ∧ m.hasKey "role" = true)) :
    ∃ d, runStream env messages = [Event.text d] ∧ strContains d "[ERROR]" = true ∧
      (runStream env messages).countP Event.isRoundComplete = 0 := by
  have hv : ∃ d, validateMessages messages = some d ∧ strContains d "[ERROR]" = true := by
    rcases hbad with rfl | ⟨m, hm, hbadm⟩
    · exact ⟨_, rfl, by decide⟩
    · have h0 : messages.isEmpty = false := by
        cases messages
        · cases hm
        · rfl
      have hs := firstInvalid_isSome 0 messages m hm hbadm
      obtain ⟨d, hd⟩ := Option.isSome_iff_exists.mp hs
      refine ⟨d, ?_, firstInvalid_some_contains_error 0 messages d hd⟩
      unfold validateMessages
      rw [if_neg (by simp [h0])]
      exact hd
  obtain ⟨d, hd, hcont⟩ := hv
  refine ⟨d, ?_, hcont, ?_⟩
  · simp only [runStream, hd]
  · simp only [runStream, hd]
    simp [List.countP_cons, Event.isRoundComplete]

/-- Witness for C1's amended theorem at the concrete malformed input `[]`. -/
theorem runStream_malformed_validation_witness :
    ∃ d, runStream envTriv [] = [Event.text d] ∧ strContains d "[ERROR]" = true ∧
      (runStream envTriv []).countP Event.isRoundComplete = 0 :=
  runStream_malformed_validation envTriv [] (.inl rfl)

/-! ## C2 -/

/-- C2: for every non-empty, well-formed messages list (every entry a dict
with a `role` key), the event sequence of `run_stream` contains exactly one
`round_complete` event and that event is the last of the sequence — for every
provider stream outcome, tool-execution behavior and formatter failure the
environment can inject. -/
theorem runStream_wellformed_single_terminal_round_complete (env : EngineEnv)
    (messages : List PyVal) (h0 : messages ≠ [])
    (hw : ∀ m ∈ messages, m.isDict = true ∧ m.hasKey "role" = true) :
    (runStream env messages).countP Event.isRoundComplete = 1 ∧
      ∃ b, (runStream env messages).getLast? = some (Event.roundComplete b) := by
  have hv := validateMessages_eq_none h0 hw
  constructor
  · simp only [runStream, hv]
    rw [List.countP_append, List.countP_append, List.countP_append,
      List.countP_append, List.countP_append,
      streamPhase_events_no_round_complete, streamFailEvents_no_round_complete,
      countP_rc_map_eq_zero (fun t => Event.toolResult t.id (resultStr env t)) _
        (fun t => rfl),
      countP_rc_map_eq_zero (fun t => Event.appendMessage (pendingMsg env t)) _
        (fun t => rfl)]
    simp [List.countP_cons, Event.isRoundComplete]
  · refine ⟨(streamPhase env.streamChunks).hadToolCalls, ?_⟩
    simp only [runStream, hv]
    exact List.getLast?_concat _

/-- Witness for C2 at a concrete well-formed input and environment. -/
theorem runStream_wellformed_single_terminal_round_complete_witness :
    (runStream envTriv [PyVal.dict [("role", PyVal.str "user")]]).countP
        Event.isRoundComplete = 1 ∧
      ∃ b, (runStream envTriv [PyVal.dict [("role", PyVal.str "user")]]).getLast? =
        some (Event.roundComplete b) :=
  runStream_wellformed_single_terminal_round_complete envTriv
    [PyVal.dict [("role", PyVal.str "user")]]
    (by simp) (by decide)

/-! ## C3 -/

/-- C3 (code bug): the dispatch-phase timeout around tool execution is the
hardcoded constant 60.0 of `_execute_tool_safely` (engine.py line 210); the
runtime-tunable `tool_timeout` attribute (engine.py line 20, set by the UI's
tool-timeout command) is never consulted.  With `tool_timeout` configured to 5
seconds, a tool running 30 seconds is NOT timed out (first conjunct), while
only an execution beyond 60 seconds yields the error result, whose message
does contain "timed out" (second and third conjuncts). -/
theorem executeToolSafely_ignores_configured_timeout :
    executeToolSafely { tool_timeout := 5 } "slow_tool" (.dict []) 30 (.str "ok") =
        .str "ok" ∧
      executeToolSafely { tool_timeout := 5 } "slow_tool" (.dict []) 70 (.str "ok") =
        .dict [("error", .str "Tool \x27slow_tool\x27 execution timed out")] ∧
      strContains "Tool \x27slow_tool\x27 execution timed out" "timed out" = true := by
  refine ⟨?_, ?_, by decide⟩
  · norm_num [executeToolSafely, PyVal.isDict]
  · norm_num [executeToolSafely, PyVal.isDict]
    rfl

/-! ## C5 -/

/-- C5: the error classifier on the four literal error strings:
a parsed "try again in 10s" wait of 10; an RPM rate limit wait of 60.0;
a 401 classified non-recoverable; a 503 server-error wait of 5.0. -/
theorem analyzeError_literal_cases :
    (analyzeError "429 rate_limit_exceeded try again in 10s").wait_seconds = some 10 ∧
      (analyzeError "429 rate_limit_exceeded rpm limit").wait_seconds = some 60 ∧
      (analyzeError "401 Unauthorized").is_recoverable = false ∧
      (analyzeError "503 Service Unavailable").wait_seconds = some 5 :=
  ⟨by decide, by decide, by decide, by decide⟩

/-! ## C8 -/

theorem filterMap_some_eq_map {α β : Type} (f : α → β) (l : List α) :
    l.filterMap (fun a => some (f a)) = l.map f := by
  induction l with
  | nil => rfl
  | cons a l ih => simp [List.filterMap_cons, ih]

theorem filterMap_none_eq_nil {α β : Type} (l : List α) :
    l.filterMap (fun _ => (none : Option β)) = [] :=
  List.filterMap_eq_nil.mpr (fun _ _ => rfl)

/-- C8: queued tool calls are paired with their results positionally (the
`zip` against the queued list): the sequence of `tool_result` events equals,
in original call order, the queued calls mapped to their own serialized
results; and the `append_message` sequence starts with the assistant message
(carrying the tool calls) followed by the tool-result messages in original
call order — so the assistant append precedes every tool-result append. -/
theorem runStream_positional_pairing_and_order (env : EngineEnv)
    (messages : List PyVal) (h0 : messages ≠ [])
    (hw : ∀ m ∈ messages, m.isDict = true ∧ m.hasKey "role" = true) :
    (runStream env messages).filterMap toolResultOf =
        (streamPhase env.streamChunks).scheduled.map
          (fun t => (t.id, resultStr env t)) ∧
      (runStream env messages).filterMap appendOf =
        assistantMessage env (streamPhase env.streamChunks) ::
          (streamPhase env.streamChunks).scheduled.map (pendingMsg env) := by
  have hv := validateMessages_eq_none h0 hw
  have hA : ∀ e ∈ (streamPhase env.streamChunks).events, toolResultOf e = none := by
    intro e he; obtain ⟨d, rfl⟩ := mem_streamPhase_events he; rfl
  have hA' : ∀ e ∈ (streamPhase env.streamChunks).events, appendOf e = none := by
    intro e he; obtain ⟨d, rfl⟩ := mem_streamPhase_events he; rfl
  have hB : (streamFailEvents env).filterMap toolResultOf = [] := by
    unfold streamFailEvents; cases env.streamError <;> rfl
  have hB' : (streamFailEvents env).filterMap appendOf = [] := by
    unfold streamFailEvents; cases env.streamError <;> rfl
  constructor
  · simp only [runStream, hv]
    rw [List.filterMap_append, List.filterMap_append, List.filterMap_append,
        List.filterMap_append, List.filterMap_append]
    rw [List.filterMap_eq_nil.mpr hA, hB, List.filterMap_map, List.filterMap_map]
    rw [show toolResultOf ∘ (fun t => Event.toolResult t.id (resultStr env t)) =
          (fun t => some (t.id, resultStr env t)) from rfl]
    rw [show toolResultOf ∘ (fun t : Sched => Event.appendMessage (pendingMsg env t)) =
          (fun _ => (none : Option (String × String))) from rfl]
    rw [filterMap_some_eq_map, filterMap_none_eq_nil]
    simp [List.filterMap_cons, toolResultOf]
  · simp only [runStream, hv]
    rw [List.filterMap_append, List.filterMap_append, List.filterMap_append,
        List.filterMap_append, List.filterMap_append]
    rw [List.filterMap_eq_nil.mpr hA', hB', List.filterMap_map, List.filterMap_map]
    rw [show appendOf ∘ (fun t : Sched => Event.toolResult t.id (resultStr env t)) =
          (fun _ => (none : Option PyVal)) from rfl]
    rw [show appendOf ∘ (fun t : Sched => Event.appendMessage (pendingMsg env t)) =
          (fun t => some (pendingMsg env t)) from rfl]
    rw [filterMap_some_eq_map, filterMap_none_eq_nil]
    simp [List.filterMap_cons, appendOf]

/-- Witness for C8 at a concrete environment with one text chunk and two tool
calls: the tool-result pairs and the append order, fully evaluated. -/
theorem runStream_positional_pairing_and_order_witness :
    (runStream envToolDemo [PyVal.dict [("role", PyVal.str "user")]]).filterMap
        toolResultOf =
        [("c1", "\x7b\"ok\": true\x7d"), ("call_2", "\x7b\"ok\": true\x7d")] ∧
      (runStream envToolDemo [PyVal.dict [("role", PyVal.str "user")]]).filterMap
        appendOf =
        [.dict [("role", .str "assistant"), ("content", .str "hi")],
         .dict [("role", .str "tool"), ("tool_call_id", .str "c1"),
                ("content", .str "\x7b\"ok\": true\x7d")],
         .dict [("role", .str "tool"), ("tool_call_id", .str "call_2"),
                ("content", .str "\x7b\"ok\": true\x7d")]] :=
  ⟨((runStream_positional_pairing_and_order envToolDemo
      [PyVal.dict [("role", PyVal.str "user")]] (by simp) (by decide)).1).trans (by rfl),
   ((runStream_positional_pairing_and_order envToolDemo
      [PyVal.dict [("role", PyVal.str "user")]] (by simp) (by decide)).2).trans (by rfl)⟩

/-! ## C10 -/

/-- C10: for every queued tool call whose `format_tool_result_message` raises,
`run_stream` still emits an `append_message` event carrying the fallback shape
`{role: tool, tool_call_id: <call id>, content: <serialized result>}` — a tool
result is never dropped because of a message-formatting failure. -/
theorem runStream_format_failure_fallback (env : EngineEnv) (messages : List PyVal)
    (t : Sched) (h0 : messages ≠ [])
    (hw : ∀ m ∈ messages, m.isDict = true ∧ m.hasKey "role" = true)
    (ht : t ∈ (streamPhase env.streamChunks).scheduled)
    (hfail : env.formatToolResult t.id (resultStr env t) = none) :
    Event.appendMessage (.dict [("role", .str "tool"), ("tool_call_id", .str t.id),
      ("content", .str (resultStr env t))]) ∈ runStream env messages := by
  have hv := validateMessages_eq_none h0 hw
  have hp : pendingMsg env t =
      .dict [("role", .str "tool"), ("tool_call_id", .str t.id),
             ("content", .str (resultStr env t))] := by
    unfold pendingMsg; rw [hfail]
  simp only [runStream, hv]
  refine List.mem_append.mpr (.inl (List.mem_append.mpr (.inr ?_)))
  exact List.mem_map.mpr ⟨t, ht, by rw [hp]⟩

/-- Witness for C10: with `envFormatFail` (whose formatter always raises),
the queued call `c1` still surfaces as a fallback tool append message. -/
theorem runStream_format_failure_fallback_witness :
    Event.appendMessage (.dict [("role", .str "tool"), ("tool_call_id", .str "c1"),
        ("content", .str "\x7b\"ok\": true\x7d")]) ∈
      runStream envFormatFail [PyVal.dict [("role", PyVal.str "user")]] :=
  runStream_format_failure_fallback envFormatFail
    [PyVal.dict [("role", PyVal.str "user")]]
    ⟨"c1", "add", .dict [("x", .int 1)]⟩
    (by simp) (by decide) (List.Mem.head _) rfl

/-! ## C4 -/

/-- C4 counterexample: on 21 non-system messages with `target_reduction = 1/4`
(a value exact in binary floating point, so the rational model matches the
Python floats), the code keeps `int(21 * 0.75) = 15` messages by truncation,
while the claim's formula `max(10, round(21 * 0.75)) = round(15.75) = 16`
demands 16 — `prune_messages` truncates, it does not round. -/
theorem pruneMessages_round_counterexample :
    (pruneMessages {} (List.replicate 21 (PyVal.dict [("role", PyVal.str "user")]))
        (1/4)).length = 15 ∧
      max (10 : ℤ) (round ((21 : ℚ) * (1 - 1/4))) = 16 := by
  constructor
  · simp +decide only [pruneMessages, isSystemMsg, PyVal.get, List.filter_replicate,
      pyInt, List.isEmpty_iff, List.length_replicate, List.length_drop,
      List.length_append]
    norm_num
    decide
  · norm_num [round_eq]

/-- C4 (amended): for every messages list and target_reduction,
`prune_messages` returns all system-role messages (in order, first), computes
`target_count = max(10, int(current * (1 - target_reduction)))` over the
non-system messages — `int()` being truncation toward zero, not rounding —
returns the input unchanged when `target_count >= current`, and otherwise
keeps exactly the most recent `target_count` non-system messages (oldest
dropped first). -/
theorem pruneMessages_spec (messages : List PyVal) (r : ℚ) :
    (((messages.filter (fun m => !isSystemMsg m)).length : ℤ) ≤
        max (10 : ℤ)
          (pyInt (((messages.filter (fun m => !isSystemMsg m)).length : ℚ) * (1 - r))) →
      pruneMessages {} messages r = messages) ∧
      (max (10 : ℤ)
          (pyInt (((messages.filter (fun m => !isSystemMsg m)).length : ℚ) * (1 - r))) <
          ((messages.filter (fun m => !isSystemMsg m)).length : ℤ) →
        pruneMessages {} messages r =
          messages.filter isSystemMsg ++
            (messages.filter (fun m => !isSystemMsg m)).drop
              ((messages.filter (fun m => !isSystemMsg m)).length -
                (max (10 : ℤ)
                  (pyInt (((messages.filter (fun m => !isSystemMsg m)).length : ℚ) *
                    (1 - r)))).toNat)) := by
  have h10 : (10 : ℤ) ≤ max (10 : ℤ)
      (pyInt (((messages.filter (fun m => !isSystemMsg m)).length : ℚ) * (1 - r))) :=
    le_max_left _ _
  constructor
  · intro hle
    unfold pruneMessages
    dsimp only
    simp only [Nat.cast_ofNat]
    by_cases hemp : messages.isEmpty
    · rw [if_pos hemp]
    · rw [if_neg hemp]
      by_cases hne : (messages.filter (fun m => !isSystemMsg m)).isEmpty
      · rw [if_pos hne]
      · rw [if_neg hne, if_pos hle]
  · intro hlt
    unfold pruneMessages
    dsimp only
    simp only [Nat.cast_ofNat]
    have hemp : messages.isEmpty = false := by
      cases hmsg : messages with
      | nil => rw [hmsg] at hlt; simp at hlt
      | cons a l => rfl
    rw [if_neg (by simp [hemp])]
    have hne : (messages.filter (fun m => !isSystemMsg m)).isEmpty = false := by
      cases hf : (messages.filter (fun m => !isSystemMsg m)) with
      | nil => rw [hf] at hlt; simp at hlt
      | cons a l => rfl
    rw [if_neg (by simp [hne])]
    rw [if_neg (by omega)]
    rw [if_neg (by omega)]

/-- Witness for C4's amended theorem at 21 non-system messages and
reduction 1/4: the truncated target is 15, so the oldest 6 are dropped. -/
theorem pruneMessages_spec_witness :
    pruneMessages {} (List.replicate 21 (PyVal.dict [("role", PyVal.str "user")]))
        (1/4) =
      (List.replicate 21 (PyVal.dict [("role", PyVal.str "user")])).filter
          isSystemMsg ++
        ((List.replicate 21 (PyVal.dict [("role", PyVal.str "user")])).filter
          (fun m => !isSystemMsg m)).drop
          (((List.replicate 21 (PyVal.dict [("role", PyVal.str "user")])).filter
              (fun m => !isSystemMsg m)).length -
            (max (10 : ℤ)
              (pyInt ((((List.replicate 21 (PyVal.dict [("role", PyVal.str "user")])).filter
                (fun m => !isSystemMsg m)).length : ℚ) * (1 - 1/4)))).toNat) :=
  (pruneMessages_spec (List.replicate 21 (PyVal.dict [("role", PyVal.str "user")]))
    (1/4)).2 (by simp +decide only [List.filter_replicate, isSystemMsg, PyVal.get,
      List.length_replicate]; norm_num [pyInt])

/-! ## C9 -/

/-- C9: when the non-system message count is at most the preserve-recent floor
(10) but the error text contains the pruning trigger term "token",
`adaptive_prune_with_summary` removes no messages — yet still inserts the
synthetic summary system message, so the returned list is exactly one message
longer than the input (system messages first, then the summary, then the
untouched non-system tail). -/
theorem adaptivePrune_small_history_token_error (messages : List PyVal)
    (error_str : String)
    (hsmall : (messages.filter (fun m => !isSystemMsg m)).length ≤ 10)
    (htok : strContains (strToLower error_str) "token" = true) :
    adaptivePruneWithSummary {} messages error_str =
        messages.filter isSystemMsg ++ [createContextSummary messages] ++
          messages.filter (fun m => !isSystemMsg m) ∧
      (adaptivePruneWithSummary {} messages error_str).length =
        messages.length + 1 := by
  have hprune : pruneMessages {} messages (7/10 : ℚ) = messages := by
    unfold pruneMessages
    dsimp only
    simp only [Nat.cast_ofNat]
    by_cases hemp : messages.isEmpty
    · rw [if_pos hemp]
    · rw [if_neg hemp]
      by_cases hne : (messages.filter (fun m => !isSystemMsg m)).isEmpty
      · rw [if_pos hne]
      · rw [if_neg hne, if_pos ?hle]
        case hle =>
          have h1 : ((messages.filter (fun m => !isSystemMsg m)).length : ℤ) ≤ 10 := by
            exact_mod_cast hsmall
          exact h1.trans (le_max_left _ _)
  have hpfe : pruneForError {} messages error_str = messages := by
    unfold pruneForError
    rw [if_pos (by simp [htok])]
    exact hprune
  have hsp : shouldPruneContext {} messages error_str = true := by
    unfold shouldPruneContext
    rw [if_pos (by simp [htok])]
  have hmain : adaptivePruneWithSummary {} messages error_str =
      messages.filter isSystemMsg ++ [createContextSummary messages] ++
        messages.filter (fun m => !isSystemMsg m) := by
    unfold adaptivePruneWithSummary
    rw [if_neg (by simp [hsp])]
    rw [hpfe]
  refine ⟨hmain, ?_⟩
  rw [hmain]
  simp only [List.length_append, List.length_singleton]
  have := List.length_eq_length_filter_add (l := messages) isSystemMsg
  omega

/-- Witness for C9: one user message and a "token limit exceeded" error —
nothing removed, summary inserted, length 1 + 1. -/
theorem adaptivePrune_small_history_token_error_witness :
    adaptivePruneWithSummary {} [PyVal.dict [("role", PyVal.str "user")]]
        "token limit exceeded" =
      [createContextSummary [PyVal.dict [("role", PyVal.str "user")]],
       PyVal.dict [("role", PyVal.str "user")]] ∧
      (adaptivePruneWithSummary {} [PyVal.dict [("role", PyVal.str "user")]]
        "token limit exceeded").length = 2 :=
  ⟨((adaptivePrune_small_history_token_error
      [PyVal.dict [("role", PyVal.str "user")]] "token limit exceeded"
      (by decide) (by decide)).1).trans (by rfl),
   ((adaptivePrune_small_history_token_error
      [PyVal.dict [("role", PyVal.str "user")]] "token limit exceeded"
      (by decide) (by decide)).2).trans (by rfl)⟩

/-! ## C7 -/

/-- C7: `handle_error_with_retry` re-raises the error exactly when the
classification is not recoverable, or the key's stored attempt count has
reached `max_retries`, or `should_retry` is false; otherwise it increments the
key's counter, sleeps the analysis's `wait_seconds` when one is provided (and
truthy, mirroring the source's `if analysis.wait_seconds:`), and then forwards
every chunk yielded by the retry function, in order. -/
theorem handleErrorWithRetry_spec (st : RetryState) (error_str retry_key : String)
    (retryChunks : List Chunk) :
    ((¬ (analyzeError error_str).is_recoverable = true ∨
        st.max_retries ≤ (assocGet st.retry_counts retry_key).getD 0 ∨
        ¬ (analyzeError error_str).should_retry = true) →
      handleErrorWithRetry st error_str retry_key retryChunks = .error error_str) ∧
      ((analyzeError error_str).is_recoverable = true →
        (assocGet st.retry_counts retry_key).getD 0 < st.max_retries →
        (analyzeError error_str).should_retry = true →
        handleErrorWithRetry st error_str retry_key retryChunks =
          .ok (⟨assocSet st.retry_counts retry_key
                  ((assocGet st.retry_counts retry_key).getD 0 + 1), st.max_retries⟩,
               (match (analyzeError error_str).wait_seconds with
                | some w => if w ≠ 0 then [RetryEvent.sleep w] else []
                | none => []) ++ retryChunks.map RetryEvent.chunk)) := by
  constructor
  · intro hra
    unfold handleErrorWithRetry
    dsimp only
    rcases hra with hnr | hmax | hnr2
    · rw [if_pos hnr]
    · by_cases hr : (analyzeError error_str).is_recoverable = true
      · rw [if_neg (not_not_intro hr), if_pos hmax]
      · rw [if_pos hr]
    · by_cases hr : (analyzeError error_str).is_recoverable = true
      · rw [if_neg (not_not_intro hr)]
        by_cases hmax : st.max_retries ≤ (assocGet st.retry_counts retry_key).getD 0
        · rw [if_pos hmax]
        · rw [if_neg hmax, if_pos hnr2]
      · rw [if_pos hr]
  · intro hr hcnt hsr
    unfold handleErrorWithRetry
    dsimp only
    rw [if_neg (not_not_intro hr), if_neg (by omega), if_neg (not_not_intro hsr)]

/-- Witness for C7: a recoverable 503 error with an empty retry state — the
counter for the key becomes 1, the 5-second backoff sleep is emitted, and the
retry function's chunk is forwarded. -/
theorem handleErrorWithRetry_spec_witness :
    handleErrorWithRetry {} "503 Service Unavailable" "k" [Chunk.text "retried"] =
      .ok ({ retry_counts := [("k", 1)] },
           [RetryEvent.sleep 5, RetryEvent.chunk (Chunk.text "retried")]) := by
  have h := (handleErrorWithRetry_spec {} "503 Service Unavailable" "k"
    [Chunk.text "retried"]).2 (by decide) (by decide) (by decide)
  rw [h]
  rfl

/-! ## C6: lemmas about the adapter's single-emission discipline -/

theorem updateBufs_emitted (st : OBuf) (tc : TCDelta) :
    (updateBufs st tc).emitted = st.emitted := by
  obtain ⟨i, oid, oname, oargs⟩ := tc
  unfold updateBufs
  cases oid <;> cases oname <;> cases oargs <;> dsimp only <;> (repeat' split) <;> rfl

theorem procTCDelta_cases (st : OBuf) (tc : TCDelta) :
    (∃ st1 : OBuf, st1.emitted = st.emitted ∧ procTCDelta st tc = (st1, [])) ∨
      (st.emitted.contains tc.index = false ∧
        ∃ (st1 : OBuf) (c : Chunk), procTCDelta st tc = (st1, [c]) ∧
          Chunk.isToolCall c = true ∧ st1.emitted = tc.index :: st.emitted) := by
  unfold procTCDelta
  dsimp only
  have hem := updateBufs_emitted st tc
  by_cases h : (updateBufs st tc).emitted.contains tc.index = true
  · rw [if_pos h]
    exact .inl ⟨_, hem, rfl⟩
  · rw [if_neg h]
    cases hbuf : assocGet (updateBufs st tc).argBuf tc.index with
    | none => simp only [hbuf]; exact .inl ⟨_, hem, rfl⟩
    | some buf =>
        simp only [hbuf]
        by_cases htr : strTrim buf = ""
        · rw [if_pos htr]; exact .inl ⟨_, hem, rfl⟩
        · rw [if_neg htr]
          cases hjson : jsonLoads buf with
          | none => simp only [hjson]; exact .inl ⟨_, hem, rfl⟩
          | some args =>
              simp only [hjson]
              refine .inr ⟨by simpa [hem] using h, _, _, rfl, rfl, by simp [hem]⟩

theorem procTCDelta_count (st : OBuf) (tc : TCDelta) (idx : Nat)
    (hidx : tc.index = idx) :
    ((procTCDelta st tc).2.countP Chunk.isToolCall) +
        (if st.emitted.contains idx then 1 else 0) ≤
      (if (procTCDelta st tc).1.emitted.contains idx then 1 else 0) := by
  subst hidx
  rcases procTCDelta_cases st tc with ⟨st1, hem, heq⟩ | ⟨hnc, st1, c, heq, hc, hem⟩
  · rw [heq]
    dsimp only
    rw [hem]
    simp
  · rw [heq]
    dsimp only
    rw [hem, hnc]
    simp [List.countP_cons, hc, List.contains_cons]

theorem foldl_tcStep_fst (tcs : List TCDelta) :
    ∀ (st : OBuf) (evs : List Chunk),
    (tcs.foldl tcStep (st, evs)).1 = (tcs.foldl tcStep (st, [])).1 := by
  induction tcs with
  | nil => intro st evs; rfl
  | cons tc rest ih =>
      intro st evs
      simp only [List.foldl_cons, tcStep]
      rw [ih ((procTCDelta st tc).1) (evs ++ (procTCDelta st tc).2),
          ih ((procTCDelta st tc).1) ([] ++ (procTCDelta st tc).2)]

theorem foldl_tcStep_snd (tcs : List TCDelta) :
    ∀ (st : OBuf) (evs : List Chunk),
    (tcs.foldl tcStep (st, evs)).2 = evs ++ (tcs.foldl tcStep (st, [])).2 := by
  induction tcs with
  | nil => intro st evs; simp
  | cons tc rest ih =>
      intro st evs
      simp only [List.foldl_cons, tcStep]
      rw [ih ((procTCDelta st tc).1) (evs ++ (procTCDelta st tc).2),
          ih ((procTCDelta st tc).1) ([] ++ (procTCDelta st tc).2)]
      simp [List.append_assoc]

theorem foldl_tcStep_count :
    ∀ (tcs : List TCDelta) (idx : Nat) (st : OBuf),
    (∀ tc ∈ tcs, tc.index = idx) →
    ((tcs.foldl tcStep (st, [])).2.countP Chunk.isToolCall) +
        (if st.emitted.contains idx then 1 else 0) ≤
      (if (tcs.foldl tcStep (st, [])).1.emitted.contains idx then 1 else 0) := by
  intro tcs
  induction tcs with
  | nil => intro idx st _; simp
  | cons tc rest ih =>
      intro idx st hidx
      simp only [List.foldl_cons, tcStep]
      rw [foldl_tcStep_snd rest ((procTCDelta st tc).1) ([] ++ (procTCDelta st tc).2)]
      simp only [foldl_tcStep_fst rest ((procTCDelta st tc).1)
        ([] ++ (procTCDelta st tc).2)]
      have h1 := procTCDelta_count st tc idx (hidx tc (by simp))
      have h2 := ih idx ((procTCDelta st tc).1) (fun t ht => hidx t (by simp [ht]))
      simp only [List.nil_append, List.countP_append]
      omega

theorem procODelta_count (st : OBuf) (d : ODelta) (idx : Nat)
    (hidx : ∀ tc ∈ d.toolCalls, tc.index = idx) :
    ((procODelta st d).2.countP Chunk.isToolCall) +
        (if st.emitted.contains idx then 1 else 0) ≤
      (if (procODelta st d).1.emitted.contains idx then 1 else 0) := by
  unfold procODelta
  dsimp only
  rw [List.countP_append]
  have htext : (match d.content with
      | some c => if c ≠ "" then [Chunk.text c] else []
      | none => ([] : List Chunk)).countP Chunk.isToolCall = 0 := by
    cases d.content <;> dsimp only <;> (repeat' split) <;> rfl
  rw [htext]
  have h := foldl_tcStep_count d.toolCalls idx st hidx
  omega

theorem foldl_dStep_fst (deltas : List ODelta) :
    ∀ (st : OBuf) (evs : List Chunk),
    (deltas.foldl dStep (st, evs)).1 = (deltas.foldl dStep (st, [])).1 := by
  induction deltas with
  | nil => intro st evs; rfl
  | cons d rest ih =>
      intro st evs
      simp only [List.foldl_cons, dStep]
      rw [ih ((procODelta st d).1) (evs ++ (procODelta st d).2),
          ih ((procODelta st d).1) ([] ++ (procODelta st d).2)]

theorem foldl_dStep_snd (deltas : List ODelta) :
    ∀ (st : OBuf) (evs : List Chunk),
    (deltas.foldl dStep (st, evs)).2 = evs ++ (deltas.foldl dStep (st, [])).2 := by
  induction deltas with
  | nil => intro st evs; simp
  | cons d rest ih =>
      intro st evs
      simp only [List.foldl_cons, dStep]
      rw [ih ((procODelta st d).1) (evs ++ (procODelta st d).2),
          ih ((procODelta st d).1) ([] ++ (procODelta st d).2)]
      simp [List.append_assoc]

theorem foldl_dStep_count :
    ∀ (deltas : List ODelta) (idx : Nat) (st : OBuf),
    (∀ d ∈ deltas, ∀ tc ∈ d.toolCalls, tc.index = idx) →
    ((deltas.foldl dStep (st, [])).2.countP Chunk.isToolCall) +
        (if st.emitted.contains idx then 1 else 0) ≤
      (if (deltas.foldl dStep (st, [])).1.emitted.contains idx then 1 else 0) := by
  intro deltas
  induction deltas with
  | nil => intro idx st _; simp
  | cons d rest ih =>
      intro idx st hidx
      simp only [List.foldl_cons, dStep]
      rw [foldl_dStep_snd rest ((procODelta st d).1) ([] ++ (procODelta st d).2)]
      simp only [foldl_dStep_fst rest ((procODelta st d).1)
        ([] ++ (procODelta st d).2)]
      have h1 := procODelta_count st d idx (hidx d (by simp))
      have h2 := ih idx ((procODelta st d).1) (fun x hx => hidx x (by simp [hx]))
      simp only [List.nil_append, List.countP_append]
      omega

/-- C6: a tool call whose argument JSON arrives fragmented across the chunks
`"{"`, `"\"a\":1"`, `"}"` produces exactly one `tool_call` event, carrying the
fully parsed arguments `{"a": 1}` — the event list is that single event, so
nothing was emitted while the buffer was still unparseable.  Moreover, for
every delta stream whose updates all target one tool-call index, at most one
`tool_call` event is ever emitted for it (partial fragments never surface as
separate or duplicate events). -/
theorem openai_fragmented_tool_call_single_emit :
    (openaiStreamEvents
        [⟨none, [⟨0, some "call_1", some "f", some "\x7b"⟩]⟩,
         ⟨none, [⟨0, none, none, some "\"a\":1"⟩]⟩,
         ⟨none, [⟨0, none, none, some "\x7d"⟩]⟩] =
      [Chunk.toolCall (some "call_1") (some "f")
        (some (.dict [("a", .int 1)]))]) ∧
      ∀ (deltas : List ODelta) (idx : Nat),
        (∀ d ∈ deltas, ∀ tc ∈ d.toolCalls, tc.index = idx) →
        (openaiStreamEvents deltas).countP Chunk.isToolCall ≤ 1 := by
  constructor
  · rfl
  · intro deltas idx hidx
    unfold openaiStreamEvents
    have h := foldl_dStep_count deltas idx OBuf.init hidx
    have hinit : OBuf.init.emitted.contains idx = false := rfl
    rw [hinit] at h
    have hle : (if (deltas.foldl dStep (OBuf.init, [])).1.emitted.contains idx
        then 1 else 0) ≤ 1 := by split <;> omega
    simp only [Bool.false_eq_true, if_false, Nat.add_zero] at h
    exact h.trans hle

/-- Witness for C6's universally quantified part at the concrete fragmented
stream (all updates target index 0). -/
theorem openai_fragmented_tool_call_single_emit_witness :
    (openaiStreamEvents
        [⟨none, [⟨0, some "call_1", some "f", some "\x7b"⟩]⟩,
         ⟨none, [⟨0, none, none, some "\"a\":1"⟩]⟩,
         ⟨none, [⟨0, none, none, some "\x7d"⟩]⟩]).countP Chunk.isToolCall ≤ 1 :=
  openai_fragmented_tool_call_single_emit.2
    [⟨none, [⟨0, some "call_1", some "f", some "\x7b"⟩]⟩,
     ⟨none, [⟨0, none, none, some "\"a\":1"⟩]⟩,
     ⟨none, [⟨0, none, none, some "\x7d"⟩]⟩] 0 (by decide)
